import Mathlib

/-!
Shallow embedding of the watermarker CLI tool (Rust sources
`src/main.rs`, `src/cmd_args/mod.rs`, `src/cmd_args/config.rs`).

Machine integers (`u32`) are modelled as `Nat`; every value produced by
the embedded parsers is `< 2 ^ 32`, matching the range checks of Rust's
`u32::from_str`, and the two `u32` multiplications in
`Resolution::scale_ratio` wrap modulo `2 ^ 32` exactly as the release
binary does (`u32Mul`; a debug build would panic on those overflows
instead).  The `f32` computation in `Resolution::scale_ratio` /
`Resolution::scaled_size` is modelled by exact real arithmetic followed
by round-half-away-from-zero (the rounding mode of Rust's
`f32::round`), with the IEEE-754 special cases (division by zero giving
`+inf`, `0 * inf` giving `NaN`, and Rust's saturating float-to-`u32`
casts `NaN as u32 = 0`, `+inf as u32 = u32::MAX`) spelled out explicitly
on the degenerate branch.  File-system effects are modelled by explicit
state passing over an association-list file system, and the external
collaborators (mozjpeg codec, fast_image_resize, `image::overlay`) are
abstracted as a record of oracle functions, since only their success or
failure — never their pixel output — is inspected by the code under
verification.
-/

deriving instance DecidableEq for Except

namespace Watermarker

/-- Fuel-driven bisection step for the integer square root: maintains
`lo*lo ≤ n < hi*hi` and halves the bracket each step, so any fuel with
`hi - lo ≤ 2 ^ fuel` reaches a bracket of width one.  Structural
recursion on the fuel keeps the function kernel-reducible. -/
def sqrtGo (n : Nat) : Nat → Nat → Nat → Nat
  | 0, lo, _ => lo
  | f + 1, lo, hi =>
    if hi ≤ lo + 1 then lo
    else
      let mid := (lo + hi) / 2
      if mid * mid ≤ n then sqrtGo n f mid hi else sqrtGo n f lo mid

/-- Integer square root (`⌊√n⌋`) by bisection. -/
def isqrt (n : Nat) : Nat :=
  sqrtGo n (n + 1) 0 (n + 1)

/-- Rust `str::split(c)` on a single-character separator, over the
character list of the string.  Both ends produce empty pieces exactly as
in Rust: `"x".split('x')` yields `["", ""]` and `"".split('x')` yields
`[""]`. -/
def splitChar (c : Char) : List Char → List (List Char)
  | [] => [[]]
  | a :: rest =>
    let r := splitChar c rest
    if a = c then [] :: r
    else
      match r with
      | [] => [[a]]
      | g :: gs => (a :: g) :: gs

/-- Rust `str::split(c)` returning strings (`s.split(c).collect()`). -/
def rustSplit (c : Char) (s : String) : List String :=
  (splitChar c s.data).map String.mk

/-- Rust `String::to_lowercase`, restricted to ASCII case folding: the
only strings the program compares after lowering are the ASCII preset
names, for which Unicode and ASCII lowering agree. -/
def rustToLowercase (s : String) : String :=
  String.mk (s.data.map Char.toLower)

/-- Rust `str::parse::<u32>()`: an optional leading `+`, then one or
more ASCII digits, value at most `u32::MAX`; anything else is a parse
error (`none`). -/
def parseU32 (s : String) : Option Nat :=
  let cs : List Char :=
    match s.data with
    | '+' :: rest => rest
    | l => l
  if cs = [] then none
  else if cs.all Char.isDigit then
    let n := cs.foldl (fun a c => a * 10 + (c.toNat - 48)) 0
    if n < 4294967296 then some n else none
  else none

/-- `enum Position` from `src/cmd_args/mod.rs`: the anchor for logo
placement. -/
inductive Position where
  | TopLeft
  | TopRight
  | BottomLeft
  | BottomRight
  | Center
deriving DecidableEq, Repr

/-- `enum PresetResolution` from `src/cmd_args/mod.rs`. -/
inductive PresetResolution where
  | QVGA
  | VGA
  | SVGA
  | HD
  | QuadVGA
  | FullHD
deriving DecidableEq, Repr

/-- `impl FromStr for PresetResolution`: case-insensitive match of the
preset names, any other string is an error carrying the offending
token. -/
def PresetResolution.fromStr (s : String) : Except String PresetResolution :=
  match rustToLowercase s with
  | "qvga" => .ok .QVGA
  | "vga" => .ok .VGA
  | "svga" => .ok .SVGA
  | "hd" => .ok .HD
  | "quadvga" => .ok .QuadVGA
  | "fullhd" => .ok .FullHD
  | _ => .error ("該当する解像度無し:" ++ s)

/-- `struct Resolution` from `src/cmd_args/mod.rs`: width and height in
pixels (`u32` fields modelled as `Nat`). -/
structure Resolution where
  width : Nat
  height : Nat
deriving DecidableEq, Repr

/-- `impl Into<Resolution> for PresetResolution`. -/
def PresetResolution.toResolution : PresetResolution → Resolution
  | .QVGA => ⟨320, 240⟩
  | .VGA => ⟨640, 480⟩
  | .SVGA => ⟨800, 600⟩
  | .HD => ⟨1280, 720⟩
  | .QuadVGA => ⟨1280, 960⟩
  | .FullHD => ⟨1920, 1080⟩

/-- `impl FromStr for Resolution`: first try the preset names, then the
`"<width>x<height>"` shape (split on `'x'`, exactly two parts, each
parsed as `u32`).  Error messages reproduce the `format!` strings of the
source verbatim — including the fact that the height-parse failure
message interpolates `parts[0]`, the width token. -/
def Resolution.fromStr (s : String) : Except String Resolution :=
  match PresetResolution.fromStr s with
  | .ok preset => .ok preset.toResolution
  | .error _ =>
    match rustSplit 'x' s with
    | [p0, p1] =>
      match parseU32 p0 with
      | none => .error ("幅の指定が無効: " ++ p0)
      | some width =>
        match parseU32 p1 with
        | none => .error ("高さの指定が無効: " ++ p0)
        | some height => .ok ⟨width, height⟩
    | _ => .error ("解像度形式が不正: " ++ s)

/-- Round-half-away-from-zero of `√(q4 / 4)` for a nonnegative rational
given by its quadruple floor: if `q4 = ⌊4q⌋` for some real `q ≥ 0`, then
`(Nat.sqrt q4 + 1) / 2` equals `round (√q)` with halves rounded up,
because `round (√q) = n ⟺ (2n−1)² ≤ 4q < (2n+1)²` and both bounds are
integers. -/
def roundSqrtQuarter (q4 : Nat) : Nat :=
  (isqrt q4 + 1) / 2

/-- One component of `Resolution::scaled_size` when neither `u32`
product wraps: `round (a * sqrt (area / (a*b))) = round (√(area·a/b))`
in exact arithmetic, computed through `⌊4·area·a/b⌋`. -/
def scaledComponent (area a b : Nat) : Nat :=
  roundSqrtQuarter (4 * area * a / b)

/-- The `u32` multiplication `a * b` as the release binary performs it:
wrapping modulo `2 ^ 32` (a debug build would panic on overflow). -/
def u32Mul (a b : Nat) : Nat :=
  (a * b) % 4294967296

/-- `Resolution::scaled_size` from `src/cmd_args/mod.rs`:
`scale = sqrt((self.width*self.height) / (w*h))` as `f32` — both
products computed in `u32`, wrapping modulo `2 ^ 32` — then each source
dimension is multiplied by `scale`, rounded (`f32::round`,
half-away-from-zero) and cast to `u32`.  The non-degenerate branch is
the exact-arithmetic model described in the module header applied to
the wrapped areas: component `d` is
`round (d · √(area / srcArea)) = round (√(area·d²/srcArea))`.  The
degenerate branch (wrapped source area `= 0`, reachable through
`w = 0`, `h = 0`, or a wrapping product such as `65536 * 65536`) spells
out the IEEE special cases the source hits: positive area divided by
`0.0` is `+inf`, `0/0` is `NaN`, multiplying `NaN` by anything is
`NaN`, `0 * inf` is `NaN`, and Rust's saturating casts send `NaN` to
`0` and `+inf` to `u32::MAX = 4294967295`. -/
def Resolution.scaled_size (r : Resolution) (w h : Nat) : Nat × Nat :=
  if u32Mul w h = 0 then
    if u32Mul r.width r.height = 0 then
      (0, 0)
    else
      ((if w = 0 then 0 else 4294967295),
       (if h = 0 then 0 else 4294967295))
  else
    (roundSqrtQuarter
      (4 * u32Mul r.width r.height * (w * w) / u32Mul w h),
     roundSqrtQuarter
      (4 * u32Mul r.width r.height * (h * h) / u32Mul w h))

/-- An RGBA image (`image::RgbaImage` / `fast_image_resize` buffers):
explicit dimensions plus abstract pixel data.  The verified code never
inspects individual pixels — it only reads dimensions and threads the
buffer through the external codec and resizer. -/
structure Image where
  width : Nat
  height : Nat
  pixels : List Nat
deriving DecidableEq, Repr

/-- The file system, modelled as an association list of regular files
(path to byte contents) plus a list of directories. -/
structure FS where
  files : List (String × List Nat)
  dirs : List String
deriving DecidableEq, Repr

/-- `Path::exists` for the modelled file system. -/
def FS.existsPath (fs : FS) (p : String) : Bool :=
  fs.files.any (fun e => e.1 == p) || fs.dirs.contains p

/-- `Path::is_dir` for the modelled file system. -/
def FS.isDir (fs : FS) (p : String) : Bool :=
  fs.dirs.contains p

/-- `File::open` + read for the modelled file system. -/
def FS.readFile (fs : FS) (p : String) : Option (List Nat) :=
  (fs.files.find? (fun e => e.1 == p)).map (fun e => e.2)

/-- `File::create` + write: replaces any previous contents at `p`. -/
def FS.writeFile (fs : FS) (p : String) (bytes : List Nat) : FS :=
  { fs with files := (p, bytes) :: fs.files.filter (fun e => ¬ e.1 == p) }

/-- `struct LogoInfo` from `src/cmd_args/config.rs`: the `logo` group
of the configuration file, every field optional. -/
structure LogoInfo where
  file_path : Option String
  position : Option Position
deriving DecidableEq, Repr

/-- `struct OutputInfo` from `src/cmd_args/config.rs`: the `output`
group of the configuration file, every field optional. -/
structure OutputInfo where
  resolution : Option Resolution
  output_path : Option String
deriving DecidableEq, Repr

/-- `struct Config` from `src/cmd_args/config.rs`. -/
structure Config where
  logo : Option LogoInfo
  output : Option OutputInfo
deriving DecidableEq, Repr

/-- `Config::logo_file_path`. -/
def Config.logo_file_path (c : Config) : Option String :=
  c.logo.bind fun l => l.file_path

/-- `Config::logo_position`. -/
def Config.logo_position (c : Config) : Option Position :=
  c.logo.bind fun l => l.position

/-- `Config::output_resolution`. -/
def Config.output_resolution (c : Config) : Option Resolution :=
  c.output.bind fun o => o.resolution

/-- `Config::output_path`. -/
def Config.output_path (c : Config) : Option String :=
  c.output.bind fun o => o.output_path

/-- `struct Options` from `src/cmd_args/mod.rs`, restricted to the
fields the configuration-resolution and processing logic reads.  Paths
are modelled as strings; the cached `logo_image` is the decoded logo
stored by `Options::validate`. -/
structure Options where
  output_path : Option String
  logo_file_path : Option String
  logo_position : Option Position
  resolution : Option Resolution
  force : Bool
  logo_image : Option Image
deriving DecidableEq, Repr

/-- The values the user actually supplied on the command line, before
clap fills in declared defaults.  The resolution argument carries the
raw string, since clap parses it (and its declared default) through
`FromStr`. -/
structure CliArgs where
  output_path : Option String
  logo_file_path : Option String
  logo_position : Option Position
  resolution : Option String
  force : Bool
deriving DecidableEq, Repr

/-- The clap parsing step for the fields above.  The `resolution`
argument is declared with `default_value = "HD"` on an
`Option<Resolution>` field, so clap always supplies a value: when the
flag is absent the default string `"HD"` is parsed instead, and the
field ends up `Some` either way.  The other optional fields stay `None`
when absent. -/
def clapParse (c : CliArgs) : Except String Options :=
  match Resolution.fromStr (c.resolution.getD "HD") with
  | .error e => .error e
  | .ok res =>
    .ok { output_path := c.output_path
          logo_file_path := c.logo_file_path
          logo_position := c.logo_position
          resolution := some res
          force := c.force
          logo_image := none }

/-- The merge step of `Options::apply_config` (the body of the
`Ok(config)` arm): each of the four configurable fields is taken from
the configuration file only when the field is still `None` after CLI
parsing.  The surrounding file-location logic (explicit path must
exist, missing default path is an empty layer, unreadable file is an
error) selects which `Config` value reaches this merge and is not
needed by the claims; merging the all-`None` `Config` models the
missing-default-file case. -/
def Options.apply_config (o : Options) (config : Config) : Options :=
  let o1 :=
    if o.logo_file_path.isNone then
      match config.logo_file_path with
      | some path => { o with logo_file_path := some path }
      | none => o
    else o
  let o2 :=
    if o1.logo_position.isNone then
      match config.logo_position with
      | some position => { o1 with logo_position := some position }
      | none => o1
    else o1
  let o3 :=
    if o2.resolution.isNone then
      match config.output_resolution with
      | some resolution => { o2 with resolution := some resolution }
      | none => o2
    else o2
  if o3.output_path.isNone then
    match config.output_path with
    | some path => { o3 with output_path := some path }
    | none => o3
  else o3

/-- Accessor `Options::output_path()`: the configured directory, or
`"."` when none was configured. -/
def Options.output_path_acc (o : Options) : String :=
  o.output_path.getD "."

/-- Accessor `Options::logo_position()`: defaults to `BottomRight`. -/
def Options.logo_position_acc (o : Options) : Position :=
  o.logo_position.getD .BottomRight

/-- Accessor `Options::resolution()`: defaults to the HD preset. -/
def Options.resolution_acc (o : Options) : Resolution :=
  (o.resolution.getD PresetResolution.HD.toResolution)

/-- Accessor `Options::logo_image()`: the source unwraps the option;
validation guarantees it is `Some` before any caller runs, so the
fallback value is never reached on validated options. -/
def Options.logo_image_acc (o : Options) : Image :=
  o.logo_image.getD ⟨0, 0, []⟩

/-- The output-directory clause of `Options::validate`
(`src/cmd_args/mod.rs` lines 467–474): only an explicitly configured
output path is checked to be a directory; a `None` output path is not
inspected at all. -/
def Options.validate_output_path (o : Options) (fs : FS) :
    Except String Unit :=
  match o.output_path with
  | some path =>
    if fs.isDir path then .ok ()
    else .error ("output path \"" ++ path ++ "\" is not directory")
  | none => .ok ()

/-- The anchor match of `proc_file` (`src/main.rs` lines 181–187),
taking the precomputed `right = width - logo.width` and
`bottom = height - logo.height` signed offsets.  Rust `i64` division
truncates toward zero, hence `Int.tdiv`. -/
def placeXY (position : Position) (right bottom : Int) : Int × Int :=
  match position with
  | .TopLeft => (0, 0)
  | .TopRight => (right, 0)
  | .BottomLeft => (0, bottom)
  | .BottomRight => (right, bottom)
  | .Center => (right.tdiv 2, bottom.tdiv 2)

/-- Logo placement as the code computes it: signed offsets from the
background and logo dimensions (`as i64` casts), then the anchor
match. -/
def proc_place (position : Position) (bw bh lw lh : Nat) : Int × Int :=
  placeXY position ((bw : Int) - (lw : Int)) ((bh : Int) - (lh : Int))

/-- Logo placement as the specification words it: TopLeft `(0,0)`,
TopRight `(bw−lw, 0)`, BottomLeft `(0, bh−lh)`, BottomRight
`(bw−lw, bh−lh)`, Center `((bw−lw)/2, (bh−lh)/2)` with signed integer
arithmetic and integer division truncating toward zero. -/
def place_spec (position : Position) (bw bh lw lh : Nat) : Int × Int :=
  match position with
  | .TopLeft => (0, 0)
  | .TopRight => ((bw : Int) - (lw : Int), 0)
  | .BottomLeft => (0, (bh : Int) - (lh : Int))
  | .BottomRight => ((bw : Int) - (lw : Int), (bh : Int) - (lh : Int))
  | .Center =>
    (((bw : Int) - (lw : Int)).tdiv 2, ((bh : Int) - (lh : Int)).tdiv 2)

/-- The external collaborators of the pipeline: mozjpeg decode/encode,
the fast_image_resize resizer and `image::imageops::overlay`.  They are
abstracted as arbitrary (pure) functions since the verified code only
branches on their success or failure. -/
structure Ext where
  decode : List Nat → Except String Image
  resize : Nat → Nat → Image → Except String Image
  overlay : Image → Image → Int → Int → Image
  encode : Image → Except String (List Nat)

/-- `decode_jpeg` from `src/main.rs`: open the file (an error when it
does not exist), then decode through the external codec. -/
def decode_jpeg (ext : Ext) (fs : FS) (path : String) :
    Except String Image :=
  match fs.readFile path with
  | none => .error ("cannot open " ++ path)
  | some bytes => ext.decode bytes

/-- `Path::file_name` for the modelled paths: the last
non-empty `/`-separated component. -/
def fileName (p : String) : String :=
  match ((splitChar '/' p.data).filter (fun g => g ≠ [])).getLast? with
  | some g => String.mk g
  | none => ""

/-- `PathBuf::join` of a directory and a file name. -/
def joinPath (dir file : String) : String :=
  dir ++ "/" ++ file

/-- Outcome of processing: the resulting file system, the console lines
printed, and success or the propagated error. -/
structure ProcResult where
  fs : FS
  log : List String
  result : Except String Unit
deriving DecidableEq, Repr

/-- `proc_file` from `src/main.rs`: compute the output path; skip (with
a log line, returning success) when it exists and overwrite is off;
otherwise decode, scale, resize, place and overlay the logo, and encode
to the output path.  `encode_jpeg` runs `File::create` before
compressing, so the output file is truncated even when compression then
fails. -/
def proc_file (ext : Ext) (opts : Options) (fs : FS) (input : String) :
    ProcResult :=
  let output_path := joinPath opts.output_path_acc (fileName input)
  if fs.existsPath output_path && !opts.force then
    ⟨fs, [input ++ " => " ++ output_path ++ " skip (already exist)"],
      .ok ()⟩
  else
    match decode_jpeg ext fs input with
    | .error e => ⟨fs, [], .error e⟩
    | .ok image =>
      let wh := opts.resolution_acc.scaled_size image.width image.height
      match ext.resize wh.1 wh.2 image with
      | .error e => ⟨fs, [], .error e⟩
      | .ok bg =>
        let logo := opts.logo_image_acc
        let xy := proc_place opts.logo_position_acc
          wh.1 wh.2 logo.width logo.height
        let composited := ext.overlay bg logo xy.1 xy.2
        match ext.encode composited with
        | .error e => ⟨fs.writeFile output_path [], [], .error e⟩
        | .ok bytes =>
          ⟨fs.writeFile output_path bytes,
            [input ++ " => " ++ output_path], .ok ()⟩

/-- `run` from `src/main.rs`, over the expanded list of file targets
(directory targets are expanded by the external walker before this
loop; expansion is not modelled).  The `?` operator propagates the
first failing `proc_file` immediately, ending the loop. -/
def run (ext : Ext) (opts : Options) (fs : FS) :
    List String → ProcResult
  | [] => ⟨fs, [], .ok ()⟩
  | t :: ts =>
    let r := proc_file ext opts fs t
    match r.result with
    | .ok _ =>
      let rest := run ext opts r.fs ts
      ⟨rest.fs, r.log ++ rest.log, rest.result⟩
    | .error e => ⟨r.fs, r.log, .error e⟩

/-- Bracket invariant of `sqrtGo`: starting from `lo*lo ≤ n < hi*hi`
with enough fuel, the result `r` satisfies `r*r ≤ n < (r+1)*(r+1)`. -/
theorem sqrtGo_spec (n : Nat) :
    ∀ (f lo hi : Nat), lo < hi → lo * lo ≤ n → n < hi * hi →
      hi ≤ lo + 2 ^ f →
      sqrtGo n f lo hi * sqrtGo n f lo hi ≤ n ∧
        n < (sqrtGo n f lo hi + 1) * (sqrtGo n f lo hi + 1) := by
  intro f
  induction f with
  | zero =>
    intro lo hi hlt hlo hhi hfuel
    simp only [sqrtGo]
    have : hi = lo + 1 := by omega
    subst this
    exact ⟨hlo, hhi⟩
  | succ f ih =>
    intro lo hi hlt hlo hhi hfuel
    simp only [sqrtGo]
    by_cases hnarrow : hi ≤ lo + 1
    · have : hi = lo + 1 := by omega
      subst this
      simp only [if_pos (le_refl _)]
      exact ⟨hlo, hhi⟩
    · rw [if_neg hnarrow]
      have hpow : 2 ^ (f + 1) = 2 ^ f + 2 ^ f := by
        rw [pow_succ]; omega
      have hpos : 1 ≤ 2 ^ f := Nat.one_le_two_pow
      by_cases hmid : ((lo + hi) / 2) * ((lo + hi) / 2) ≤ n
      · rw [if_pos hmid]
        exact ih ((lo + hi) / 2) hi (by omega) hmid hhi (by omega)
      · rw [if_neg hmid]
        exact ih lo ((lo + hi) / 2) (by omega) hlo (by omega) (by omega)

/-- `isqrt` computes the integer square root. -/
theorem isqrt_spec (n : Nat) :
    isqrt n * isqrt n ≤ n ∧ n < (isqrt n + 1) * (isqrt n + 1) := by
  have hfuel : n + 1 ≤ 0 + 2 ^ (n + 1) := by
    have := Nat.lt_two_pow (n + 1)
    omega
  exact sqrtGo_spec n (n + 1) 0 (n + 1) (by omega) (by omega)
    (by nlinarith) hfuel

/-- `1 ≤ isqrt k` as soon as `1 ≤ k`. -/
theorem one_le_isqrt {k : Nat} (hk : 1 ≤ k) : 1 ≤ isqrt k := by
  rcases isqrt_spec k with ⟨-, hlt⟩
  by_contra h
  have : isqrt k = 0 := by omega
  rw [this] at hlt
  omega

/-- C1: the claim says every configurable field resolves by the
priority order [CLI, config file, defaults], so a field absent on the
CLI but present in the config file takes the config file's value.  This
holds for the anchor position (first conjunct), but fails for the
output resolution: clap's `default_value = "HD"` fills the CLI layer
whenever `-r` is absent, so `apply_config` finds the field already
`Some` and the config file's resolution (here VGA 640×480) is never
applied — the effective resolution is HD 1280×720. -/
theorem C1_resolution_config_layer_dead :
    ((clapParse
        { output_path := none, logo_file_path := some "logo.png",
          logo_position := none, resolution := none,
          force := false }).map
      (fun o => (o.apply_config
        { logo := some { file_path := none, position := some .TopLeft },
          output := some { resolution := some ⟨640, 480⟩,
                           output_path := none } }).logo_position_acc)
      = .ok .TopLeft) ∧
    ((clapParse
        { output_path := none, logo_file_path := some "logo.png",
          logo_position := none, resolution := none,
          force := false }).map
      (fun o => (o.apply_config
        { logo := some { file_path := none, position := some .TopLeft },
          output := some { resolution := some ⟨640, 480⟩,
                           output_path := none } }).resolution_acc)
      = .ok ⟨1280, 720⟩) ∧
    (⟨1280, 720⟩ : Resolution) ≠ ⟨640, 480⟩ := by
  decide

/-- C2 counterexample: the string `"0x240"` has a zero width component
but is not rejected — parsing succeeds and yields a `Resolution` whose
width is `0`, falsifying the claimed `width > 0` invariant for parsed
values. -/
theorem C2_counterexample :
    Resolution.fromStr "0x240" = .ok ⟨0, 240⟩ ∧
    ¬ 0 < (Resolution.mk 0 240).width := by
  decide

/-- C2 amended: every `Resolution` obtained from a preset name has
positive width and height, but `"<width>x<height>"` parsing accepts any
`u32` literals including zero, so `"0x240"` is accepted and yields
`Resolution(0, 240)` rather than being rejected as a format error. -/
theorem C2_preset_positive_wxh_unchecked :
    (∀ p : PresetResolution,
      0 < p.toResolution.width ∧ 0 < p.toResolution.height) ∧
    Resolution.fromStr "0x240" = .ok ⟨0, 240⟩ := by
  constructor
  · intro p
    cases p <;> decide
  · decide

/-- C3: for `"640xabc"` the width part parses and the height part
fails, but the error message interpolates `parts[0]` — the width token
`"640"` — and the height token `"abc"` does not occur in the message at
all: the source's `format!("高さの指定が無効: {}", parts[0])` names the
wrong token. -/
theorem C3_height_error_names_width_token :
    Resolution.fromStr "640xabc" = .error "高さの指定が無効: 640" ∧
    ¬ List.IsInfix "abc".data ("高さの指定が無効: 640").data := by
  decide

/-- When neither `u32` product wraps and the source is positive,
`scaled_size` is the pair of exact rounded components
`round (√(area·w/h))`, `round (√(area·h/w))`. -/
theorem scaled_size_eq_of_no_wrap (r : Resolution) (w h : Nat)
    (hw : 0 < w) (hh : 0 < h)
    (harea32 : r.width * r.height < 4294967296)
    (hsrc32 : w * h < 4294967296) :
    r.scaled_size w h =
      (scaledComponent (r.width * r.height) w h,
       scaledComponent (r.width * r.height) h w) := by
  have hsrc : u32Mul w h = w * h := Nat.mod_eq_of_lt hsrc32
  have harea : u32Mul r.width r.height = r.width * r.height :=
    Nat.mod_eq_of_lt harea32
  have hne : ¬ u32Mul w h = 0 := by
    rw [hsrc]; positivity
  rw [Resolution.scaled_size, if_neg hne, hsrc, harea]
  have hcw : 4 * (r.width * r.height) * (w * w) / (w * h)
      = 4 * (r.width * r.height) * w / h := by
    rw [show 4 * (r.width * r.height) * (w * w)
        = w * (4 * (r.width * r.height) * w) by ring]
    exact Nat.mul_div_mul_left _ _ hw
  have hch : 4 * (r.width * r.height) * (h * h) / (w * h)
      = 4 * (r.width * r.height) * h / w := by
    rw [show 4 * (r.width * r.height) * (h * h)
        = h * (4 * (r.width * r.height) * h) by ring,
      show w * h = h * w from Nat.mul_comm w h]
    exact Nat.mul_div_mul_left _ _ hh
  rw [hcw, hch]
  rfl

/-- C4 counterexample: a degenerate source (width 0) does not produce
an error — `scaled_size` is total and returns the numeric pair
`(0, 4294967295)` (the saturating `u32` casts of the `NaN` and `+inf`
float products). -/
theorem C4_counterexample :
    Resolution.scaled_size ⟨1280, 720⟩ 0 240 = (0, 4294967295) := by
  decide

/-- C4 amended: `scaled_size` has no error path.  For every positive
`n < 2^32`, a source with one zero dimension yields the numeric pair
produced by the IEEE special values: the zero dimension maps to `0`
(`NaN as u32`); the positive dimension maps to
`u32::MAX = 4294967295` (`+inf as u32`) when the target's wrapped `u32`
area is nonzero, and to `0` (`0/0` is `NaN`) when the wrapped area is
zero (e.g. a target parsed from `"65536x65536"`). -/
theorem C4_degenerate_source_numeric (r : Resolution) (n : Nat)
    (hn : 0 < n) (_hn32 : n < 4294967296) :
    r.scaled_size 0 n =
      (0, if u32Mul r.width r.height = 0 then 0 else 4294967295) ∧
    r.scaled_size n 0 =
      ((if u32Mul r.width r.height = 0 then 0 else 4294967295), 0) := by
  have h0n : u32Mul 0 n = 0 := by simp [u32Mul]
  have hn0 : u32Mul n 0 = 0 := by simp [u32Mul]
  constructor
  · rw [Resolution.scaled_size, if_pos h0n]
    by_cases harea : u32Mul r.width r.height = 0
    · rw [if_pos harea, if_pos harea]
    · rw [if_neg harea, if_neg harea, if_pos rfl, if_neg hn.ne']
  · rw [Resolution.scaled_size, if_pos hn0]
    by_cases harea : u32Mul r.width r.height = 0
    · rw [if_pos harea, if_pos harea]
    · rw [if_neg harea, if_neg harea, if_neg hn.ne', if_pos rfl]

/-- Witness for C4's amended theorem at the HD target and `n = 240`. -/
theorem C4_degenerate_source_numeric_witness :
    Resolution.scaled_size ⟨1280, 720⟩ 0 240 =
      (0, if u32Mul 1280 720 = 0 then 0 else 4294967295) ∧
    Resolution.scaled_size ⟨1280, 720⟩ 240 0 =
      ((if u32Mul 1280 720 = 0 then 0 else 4294967295), 0) :=
  C4_degenerate_source_numeric ⟨1280, 720⟩ 240 (by decide) (by decide)

/-- C5 counterexample: the (parseable) target `1x1` with the positive
source `1×5` yields `scaled_size = (0, 2)` — the width component is
`0`, falsifying the claim that both components are always ≥ 1 for
positive targets and sources.  The (parseable) target `65536x65536`,
whose `u32` area wraps to `0`, collapses even a 1×1 source to
`(0, 0)`. -/
theorem C5_counterexample :
    Resolution.fromStr "1x1" = .ok ⟨1, 1⟩ ∧
    Resolution.scaled_size ⟨1, 1⟩ 1 5 = (0, 2) ∧
    ¬ 1 ≤ (Resolution.scaled_size ⟨1, 1⟩ 1 5).1 ∧
    Resolution.fromStr "65536x65536" = .ok ⟨65536, 65536⟩ ∧
    Resolution.scaled_size ⟨65536, 65536⟩ 1 1 = (0, 0) := by
  decide

/-- C5 amended: for positive sources, when neither `u32` area product
wraps (target area and source area both `< 2^32`), each component of
`scaled_size` is ≥ 1 exactly when the rounded product is at least one
half; the sufficient conditions `h ≤ 4·area·w` and `w ≤ 4·area·h`
(area = target width × height) recover the claim, which fails without
them (the 1×1 target with source 1×5, and any target whose `u32` area
wraps to zero such as 65536×65536). -/
theorem C5_components_ge_one (r : Resolution) (w h : Nat)
    (hw : 0 < w) (hh : 0 < h)
    (harea32 : r.width * r.height < 4294967296)
    (hsrc32 : w * h < 4294967296)
    (h1 : h ≤ 4 * (r.width * r.height) * w)
    (h2 : w ≤ 4 * (r.width * r.height) * h) :
    1 ≤ (r.scaled_size w h).1 ∧ 1 ≤ (r.scaled_size w h).2 := by
  rw [scaled_size_eq_of_no_wrap r w h hw hh harea32 hsrc32]
  have key : ∀ a b : Nat, 0 < b → b ≤ 4 * (r.width * r.height) * a →
      1 ≤ scaledComponent (r.width * r.height) a b := by
    intro a b hb hba
    have hk : 1 ≤ 4 * (r.width * r.height) * a / b :=
      (Nat.one_le_div_iff hb).mpr hba
    have := one_le_isqrt hk
    unfold scaledComponent roundSqrtQuarter
    omega
  exact ⟨key w h hh h1, key h w hw h2⟩

/-- Witness for C5's amended theorem: HD target, source 4×3. -/
theorem C5_components_ge_one_witness :
    1 ≤ (Resolution.scaled_size ⟨1280, 720⟩ 4 3).1 ∧
    1 ≤ (Resolution.scaled_size ⟨1280, 720⟩ 4 3).2 :=
  C5_components_ge_one ⟨1280, 720⟩ 4 3 (by decide) (by decide)
    (by decide) (by decide) (by decide) (by decide)

/-- C6: the placement computed by the code (signed offsets
`right = bw − lw`, `bottom = bh − lh`, anchor match, `i64` division
truncating toward zero) coincides with the specification's formulas for
every anchor and all dimensions, and on background 1280×720 with logo
100×50 it gives BottomRight `(1180, 670)`, TopLeft `(0, 0)` and Center
`(590, 335)`. -/
theorem C6_placement :
    (∀ (position : Position) (bw bh lw lh : Nat),
      proc_place position bw bh lw lh = place_spec position bw bh lw lh) ∧
    proc_place .BottomRight 1280 720 100 50 = (1180, 670) ∧
    proc_place .TopLeft 1280 720 100 50 = (0, 0) ∧
    proc_place .Center 1280 720 100 50 = (590, 335) := by
  refine ⟨fun position bw bh lw lh => ?_, by decide, by decide, by decide⟩
  cases position <;> rfl

/-- When the config file defines no output path, the merge leaves the
CLI's output path (defined or not) untouched. -/
theorem apply_config_output_path (o : Options) (cfg : Config)
    (hcfg : cfg.output_path = none) :
    (o.apply_config cfg).output_path = o.output_path := by
  unfold Options.apply_config
  rw [hcfg]
  rcases cfg.logo_file_path with - | p <;>
    rcases cfg.logo_position with - | q <;>
    rcases cfg.output_resolution with - | s <;>
    rcases ho1 : o.logo_file_path <;>
    rcases ho2 : o.logo_position <;>
    rcases ho3 : o.resolution <;>
    simp [ho1, ho2, ho3]

/-- C10: when the CLI gives no output directory and the config file
defines none, the merged options keep `output_path = None`, the
accessor silently yields `"."`, and the output-directory validation
clause succeeds on every file system — it only inspects an explicitly
configured path, for which it checks `is_dir`. -/
theorem C10_default_output_dir_unvalidated (cli : CliArgs) (cfg : Config)
    (o : Options) (hparse : clapParse cli = .ok o)
    (hcli : cli.output_path = none) (hcfg : cfg.output_path = none) :
    (o.apply_config cfg).output_path = none ∧
    (o.apply_config cfg).output_path_acc = "." ∧
    (∀ fs : FS, (o.apply_config cfg).validate_output_path fs = .ok ()) ∧
    (∀ (fs : FS) (p : String),
      ({ o.apply_config cfg with output_path := some p
          } : Options).validate_output_path fs = .ok () ↔
        fs.isDir p = true) := by
  have ho : o.output_path = none := by
    unfold clapParse at hparse
    cases hres : Resolution.fromStr (cli.resolution.getD "HD") with
    | error e => rw [hres] at hparse; cases hparse
    | ok res =>
      rw [hres] at hparse
      injection hparse with h
      rw [← h]
      exact hcli
  have hmerged : (o.apply_config cfg).output_path = none :=
    (apply_config_output_path o cfg hcfg).trans ho
  refine ⟨hmerged, ?_, ?_, ?_⟩
  · rw [Options.output_path_acc, hmerged]; rfl
  · intro fs
    rw [Options.validate_output_path, hmerged]
  · intro fs p
    rw [Options.validate_output_path]
    cases hdir : fs.isDir p <;> simp [hdir]

/-- The command line of the demonstration scenarios: only the logo
path is given explicitly. -/
def cliDemo : CliArgs :=
  { output_path := none, logo_file_path := some "logo.png",
    logo_position := none, resolution := none, force := false }

/-- The options clap produces for `cliDemo` (the resolution field is
filled by the declared default `"HD"`). -/
def optsParsedDemo : Options :=
  { output_path := none, logo_file_path := some "logo.png",
    logo_position := none, resolution := some ⟨1280, 720⟩,
    force := false, logo_image := none }

/-- Witness for C10 at an all-default command line and an empty config
file. -/
theorem C10_default_output_dir_unvalidated_witness :
    (optsParsedDemo.apply_config ⟨none, none⟩).output_path = none ∧
    (optsParsedDemo.apply_config ⟨none, none⟩).output_path_acc = "." ∧
    (∀ fs : FS,
      (optsParsedDemo.apply_config ⟨none, none⟩).validate_output_path fs
        = .ok ()) ∧
    (∀ (fs : FS) (p : String),
      ({ optsParsedDemo.apply_config ⟨none, none⟩ with
          output_path := some p } : Options).validate_output_path fs
          = .ok () ↔ fs.isDir p = true) :=
  C10_default_output_dir_unvalidated cliDemo ⟨none, none⟩
    optsParsedDemo (by decide) (by decide) (by decide)

/-- C8: with an existing output file and the force flag off,
`proc_file` succeeds for every behavior of the external codec (so
nothing is decoded or encoded), leaves the file system — in particular
the existing output file's bytes — unchanged, logs the skip line, and
`run` continues with the remaining targets exactly as if started on
them directly. -/
theorem C8_skip_existing (ext : Ext) (opts : Options) (fs : FS)
    (input : String) (ts : List String)
    (hex : fs.existsPath (joinPath opts.output_path_acc (fileName input))
      = true)
    (hforce : opts.force = false) :
    proc_file ext opts fs input =
      ⟨fs, [input ++ " => "
        ++ joinPath opts.output_path_acc (fileName input)
        ++ " skip (already exist)"], .ok ()⟩ ∧
    run ext opts fs (input :: ts) =
      ⟨(run ext opts fs ts).fs,
        (input ++ " => " ++ joinPath opts.output_path_acc (fileName input)
          ++ " skip (already exist)") :: (run ext opts fs ts).log,
        (run ext opts fs ts).result⟩ := by
  have h1 : proc_file ext opts fs input =
      ⟨fs, [input ++ " => "
        ++ joinPath opts.output_path_acc (fileName input)
        ++ " skip (already exist)"], .ok ()⟩ := by
    simp [proc_file, hex, hforce]
  refine ⟨h1, ?_⟩
  rw [run, h1]
  simp

/-- C9: the batch is fail-fast.  If the first `ts1` targets all
succeed, reaching file-system state `fs1`, and the next target `t`
fails with error `e`, then the whole run over `ts1 ++ t :: ts2` stops
with exactly that error: the trailing targets `ts2` are never touched
(the result does not depend on them), and the outputs the successful
prefix wrote are kept in the final state, not rolled back. -/
theorem C9_fail_fast (ext : Ext) (opts : Options) :
    ∀ (ts1 : List String) (fs fs1 : FS) (log1 : List String)
      (t : String) (ts2 : List String) (e : String),
      run ext opts fs ts1 = ⟨fs1, log1, .ok ()⟩ →
      (proc_file ext opts fs1 t).result = .error e →
      run ext opts fs (ts1 ++ t :: ts2) =
        ⟨(proc_file ext opts fs1 t).fs,
          log1 ++ (proc_file ext opts fs1 t).log, .error e⟩ := by
  intro ts1
  induction ts1 with
  | nil =>
    intro fs fs1 log1 t ts2 e hrun herr
    rw [run] at hrun
    injection hrun with h1 h2 h3
    subst h1; subst h2
    rw [List.nil_append, run, herr]
    simp
  | cons a as ih =>
    intro fs fs1 log1 t ts2 e hrun herr
    rw [run] at hrun
    cases hres : (proc_file ext opts fs a).result with
    | error e' => rw [hres] at hrun; simp at hrun
    | ok u =>
      rw [hres] at hrun
      simp only at hrun
      injection hrun with h1 h2 h3
      have hrest : run ext opts (proc_file ext opts fs a).fs as =
          ⟨fs1, (run ext opts (proc_file ext opts fs a).fs as).log,
            .ok ()⟩ := by
        cases hr : run ext opts (proc_file ext opts fs a).fs as
        simp only [hr] at h1 h3 ⊢
        rw [h1, h3]
      have := ih (proc_file ext opts fs a).fs fs1
        (run ext opts (proc_file ext opts fs a).fs as).log t ts2 e
        hrest herr
      rw [List.cons_append, run, hres, this, ← h2]
      simp [List.append_assoc]

/-- A concrete well-behaved external-collaborator record for the
demonstration runs: decoding always yields a 2×2 image, resizing and
encoding succeed. -/
def extDemo : Ext :=
  { decode := fun _ => .ok ⟨2, 2, [0, 0, 0, 0]⟩
    resize := fun w h img => .ok ⟨w, h, img.pixels⟩
    overlay := fun bg _ _ _ => bg
    encode := fun img => .ok img.pixels }

/-- Concrete validated options for the demonstration runs. -/
def optsDemo : Options :=
  { output_path := some "out", logo_file_path := some "logo.png",
    logo_position := none, resolution := some ⟨2, 2⟩,
    force := false, logo_image := some ⟨1, 1, [7]⟩ }

/-- Demonstration file system: one input file, the output directory. -/
def fsDemo : FS :=
  { files := [("a.jpg", [1])], dirs := ["out"] }

/-- `fsDemo` after successfully processing `a.jpg` with `extDemo`. -/
def fsDemoAfter : FS :=
  { files := [("out/a.jpg", [0, 0, 0, 0]), ("a.jpg", [1])],
    dirs := ["out"] }

/-- Witness for C8: processing `a.jpg` again when `out/a.jpg` already
exists skips and leaves the file system unchanged. -/
theorem C8_skip_existing_witness :
    proc_file extDemo optsDemo fsDemoAfter "a.jpg" =
      ⟨fsDemoAfter, ["a.jpg" ++ " => "
        ++ joinPath optsDemo.output_path_acc (fileName "a.jpg")
        ++ " skip (already exist)"], .ok ()⟩ ∧
    run extDemo optsDemo fsDemoAfter ("a.jpg" :: ["z.jpg"]) =
      ⟨(run extDemo optsDemo fsDemoAfter ["z.jpg"]).fs,
        ("a.jpg" ++ " => "
          ++ joinPath optsDemo.output_path_acc (fileName "a.jpg")
          ++ " skip (already exist)")
          :: (run extDemo optsDemo fsDemoAfter ["z.jpg"]).log,
        (run extDemo optsDemo fsDemoAfter ["z.jpg"]).result⟩ :=
  C8_skip_existing extDemo optsDemo fsDemoAfter "a.jpg" ["z.jpg"]
    (by decide) (by decide)

/-- Witness for C9: `a.jpg` succeeds, `b.jpg` fails to open, and the
run over `["a.jpg", "b.jpg", "c.jpg"]` stops with that error without
touching `c.jpg` and keeping `out/a.jpg`. -/
theorem C9_fail_fast_witness :
    run extDemo optsDemo fsDemo (["a.jpg"] ++ "b.jpg" :: ["c.jpg"]) =
      ⟨(proc_file extDemo optsDemo fsDemoAfter "b.jpg").fs,
        ["a.jpg => out/a.jpg"]
          ++ (proc_file extDemo optsDemo fsDemoAfter "b.jpg").log,
        .error "cannot open b.jpg"⟩ :=
  C9_fail_fast extDemo optsDemo ["a.jpg"] fsDemo fsDemoAfter
    ["a.jpg => out/a.jpg"] "b.jpg" ["c.jpg"] "cannot open b.jpg"
    (by decide) (by decide)

/-- The rounding model is exact: one component of the non-degenerate
`scaled_size` is within one half of the real value
`√(area·a/b)` it rounds. -/
theorem scaledComponent_close (area a b : Nat) (hb : 0 < b) :
    |((scaledComponent area a b : ℕ) : ℝ) -
      Real.sqrt ((area : ℝ) * a / b)| ≤ 1 / 2 := by
  have hbR : (0 : ℝ) < b := by exact_mod_cast hb
  obtain ⟨hm1, hm2⟩ := isqrt_spec (4 * area * a / b)
  have hkb : (4 * area * a / b) * b ≤ 4 * area * a :=
    Nat.div_mul_le_self _ b
  have hmod : 4 * area * a % b < b := Nat.mod_lt _ hb
  have hdm : b * (4 * area * a / b) + 4 * area * a % b = 4 * area * a :=
    Nat.div_add_mod _ b
  have hkb2 : 4 * area * a < (4 * area * a / b + 1) * b := by
    calc 4 * area * a
        = b * (4 * area * a / b) + 4 * area * a % b := hdm.symm
      _ < b * (4 * area * a / b) + b := Nat.add_lt_add_left hmod _
      _ = (4 * area * a / b + 1) * b := by ring
  have hcast : (4 : ℝ) * ((area : ℝ) * a / b)
      = ((4 * area * a : ℕ) : ℝ) / b := by
    push_cast
    ring
  have hk1 : ((4 * area * a / b : ℕ) : ℝ) ≤ 4 * ((area : ℝ) * a / b) := by
    rw [hcast, le_div_iff₀ hbR]
    exact_mod_cast hkb
  have hk2 : 4 * ((area : ℝ) * a / b)
      < ((4 * area * a / b : ℕ) : ℝ) + 1 := by
    rw [hcast, div_lt_iff₀ hbR]
    exact_mod_cast hkb2
  set m : Nat := isqrt (4 * area * a / b) with hmdef
  have hm1R : ((m : ℝ)) * m ≤ 4 * ((area : ℝ) * a / b) :=
    le_trans (by exact_mod_cast hm1) hk1
  have hm2R : 4 * ((area : ℝ) * a / b)
      < ((m : ℝ) + 1) * ((m : ℝ) + 1) :=
    lt_of_lt_of_le hk2 (by exact_mod_cast hm2)
  have hq0 : (0 : ℝ) ≤ (area : ℝ) * a / b := by positivity
  have hlow : (m : ℝ) / 2 ≤ Real.sqrt ((area : ℝ) * a / b) := by
    rw [Real.le_sqrt (by positivity) hq0]
    nlinarith [hm1R]
  have hhigh : Real.sqrt ((area : ℝ) * a / b) < ((m : ℝ) + 1) / 2 := by
    rw [Real.sqrt_lt' (by positivity)]
    nlinarith [hm2R]
  have hcomp : scaledComponent area a b = (m + 1) / 2 := rfl
  rw [hcomp]
  rcases Nat.even_or_odd m with ⟨j, hj⟩ | ⟨j, hj⟩
  · have hn : (m + 1) / 2 = j := by omega
    rw [hn]
    have hjm : (m : ℝ) = 2 * j := by
      rw [hj]; push_cast; ring
    rw [hjm] at hlow hhigh
    rw [abs_le]
    constructor <;> linarith
  · have hn : (m + 1) / 2 = j + 1 := by omega
    rw [hn]
    have hjm : (m : ℝ) = 2 * j + 1 := by
      rw [hj]; push_cast; ring
    rw [hjm] at hlow hhigh
    push_cast
    rw [abs_le]
    constructor <;> linarith

/-- Pulling a positive factor under the square root:
`w·√(A/(w·h)) = √(A·w/h)`. -/
theorem mul_sqrt_div (A w h : ℝ) (hw : 0 < w) (hh : 0 < h) :
    w * Real.sqrt (A / (w * h)) = Real.sqrt (A * w / h) := by
  have h1 : w * Real.sqrt (A / (w * h)) =
      Real.sqrt (w ^ 2) * Real.sqrt (A / (w * h)) := by
    rw [Real.sqrt_sq hw.le]
  rw [h1, ← Real.sqrt_mul (sq_nonneg w)]
  congr 1
  field_simp
  ring

/-- C7 counterexample: the wrapping `u32` products break the tolerance
claim at reachable inputs.  A 65536×65536 source (`u32` area wraps to
`0`) sent to the HD target divides by `0.0` and saturates to
`(u32::MAX, u32::MAX)` — a pixel count astronomically above the
921600-pixel target budget (it exceeds even twice the budget) — and a
target parsed from `"65536x65536"` (wrapped area `0`) collapses a
3840×2160 source to `(0, 0)`. -/
theorem C7_counterexample :
    Resolution.scaled_size ⟨1280, 720⟩ 65536 65536
      = (4294967295, 4294967295) ∧
    ¬ (4294967295 * 4294967295 ≤ 2 * (1280 * 720)) ∧
    Resolution.fromStr "65536x65536" = .ok ⟨65536, 65536⟩ ∧
    Resolution.scaled_size ⟨65536, 65536⟩ 3840 2160 = (0, 0) := by
  decide

/-- C7 amended: `scaled_size` at the HD target on a 3840×2160 source
is exactly `(1280, 720)`; and for positive source dimensions, provided
neither `u32` area product wraps (target area and source area both
`< 2^32`), each output component is within one half of the
corresponding real product `dim · scale_ratio` (so the aspect ratio is
preserved up to the two independent roundings), and the output pixel
count matches the target's pixel count up to the tolerance those
roundings induce.  Without the no-wrap bounds the tolerance fails at
reachable inputs (see the counterexample). -/
theorem C7_scaled_size_pixel_budget :
    Resolution.scaled_size ⟨1280, 720⟩ 3840 2160 = (1280, 720) ∧
    ∀ (r : Resolution) (w h : Nat), 0 < w → 0 < h →
      r.width * r.height < 4294967296 → w * h < 4294967296 →
      |(((r.scaled_size w h).1 : ℕ) : ℝ) -
          (w : ℝ) * Real.sqrt ((r.width : ℝ) * r.height /
            ((w : ℝ) * h))| ≤ 1 / 2 ∧
      |(((r.scaled_size w h).2 : ℕ) : ℝ) -
          (h : ℝ) * Real.sqrt ((r.width : ℝ) * r.height /
            ((w : ℝ) * h))| ≤ 1 / 2 ∧
      |(((r.scaled_size w h).1 : ℕ) : ℝ) *
            (((r.scaled_size w h).2 : ℕ) : ℝ) -
          (r.width : ℝ) * r.height| ≤
        ((((r.scaled_size w h).2 : ℕ) : ℝ) +
          (w : ℝ) * Real.sqrt ((r.width : ℝ) * r.height /
            ((w : ℝ) * h))) / 2 := by
  refine ⟨by decide, ?_⟩
  intro r w h hw hh harea32 hsrc32
  have hwR : (0 : ℝ) < w := by exact_mod_cast hw
  have hhR : (0 : ℝ) < h := by exact_mod_cast hh
  have hc1 : (r.scaled_size w h).1
      = scaledComponent (r.width * r.height) w h := by
    rw [scaled_size_eq_of_no_wrap r w h hw hh harea32 hsrc32]
  have hc2 : (r.scaled_size w h).2
      = scaledComponent (r.width * r.height) h w := by
    rw [scaled_size_eq_of_no_wrap r w h hw hh harea32 hsrc32]
  rw [hc1, hc2]
  have e1 := scaledComponent_close (r.width * r.height) w h hh
  have e2 := scaledComponent_close (r.width * r.height) h w hw
  have hb1 : (w : ℝ) * Real.sqrt ((r.width : ℝ) * r.height /
        ((w : ℝ) * h))
      = Real.sqrt (((r.width * r.height : ℕ) : ℝ) * w / h) := by
    rw [mul_sqrt_div _ _ _ hwR hhR]
    congr 1
    push_cast
    ring
  have hb2 : (h : ℝ) * Real.sqrt ((r.width : ℝ) * r.height /
        ((w : ℝ) * h))
      = Real.sqrt (((r.width * r.height : ℕ) : ℝ) * h / w) := by
    have hmm := mul_sqrt_div ((r.width : ℝ) * r.height) (h : ℝ) (w : ℝ)
      hhR hwR
    rw [mul_comm (h : ℝ) (w : ℝ)] at hmm
    rw [hmm]
    congr 1
    push_cast
    ring
  rw [← hb1] at e1
  rw [← hb2] at e2
  refine ⟨e1, e2, ?_⟩
  have hq0 : (0 : ℝ) ≤ (r.width : ℝ) * r.height / ((w : ℝ) * h) := by
    positivity
  have hid : ((w : ℝ) * Real.sqrt ((r.width : ℝ) * r.height /
        ((w : ℝ) * h))) *
      ((h : ℝ) * Real.sqrt ((r.width : ℝ) * r.height /
        ((w : ℝ) * h)))
      = (r.width : ℝ) * r.height := by
    have hsq : Real.sqrt ((r.width : ℝ) * r.height / ((w : ℝ) * h)) ^ 2
        = (r.width : ℝ) * r.height / ((w : ℝ) * h) := Real.sq_sqrt hq0
    have hexp : ((w : ℝ) * Real.sqrt ((r.width : ℝ) * r.height /
          ((w : ℝ) * h))) *
        ((h : ℝ) * Real.sqrt ((r.width : ℝ) * r.height /
          ((w : ℝ) * h)))
        = (w : ℝ) * h * (Real.sqrt ((r.width : ℝ) * r.height /
            ((w : ℝ) * h)) ^ 2) := by ring
    rw [hexp, hsq]
    field_simp
  set c1 : ℝ := ((scaledComponent (r.width * r.height) w h : ℕ) : ℝ)
  set c2 : ℝ := ((scaledComponent (r.width * r.height) h w : ℕ) : ℝ)
  set rw1 : ℝ := (w : ℝ) * Real.sqrt ((r.width : ℝ) * r.height /
    ((w : ℝ) * h))
  set rh1 : ℝ := (h : ℝ) * Real.sqrt ((r.width : ℝ) * r.height /
    ((w : ℝ) * h))
  have hc10 : 0 ≤ c1 := Nat.cast_nonneg _
  have hc20 : 0 ≤ c2 := Nat.cast_nonneg _
  have hrw0 : 0 ≤ rw1 := by positivity
  rw [abs_le] at e1 e2 ⊢
  obtain ⟨l1, u1⟩ := e1
  obtain ⟨l2, u2⟩ := e2
  have hint1 : (rw1 - 1 / 2) * c2 ≤ c1 * c2 :=
    mul_le_mul_of_nonneg_right (by linarith) hc20
  have hint2 : rw1 * (rh1 - c2) ≤ rw1 * (1 / 2) :=
    mul_le_mul_of_nonneg_left (by linarith) hrw0
  have hint3 : c1 * c2 ≤ (rw1 + 1 / 2) * c2 :=
    mul_le_mul_of_nonneg_right (by linarith) hc20
  have hint4 : rw1 * (c2 - rh1) ≤ rw1 * (1 / 2) :=
    mul_le_mul_of_nonneg_left (by linarith) hrw0
  constructor
  · nlinarith [hid, hint1, hint2]
  · nlinarith [hid, hint3, hint4]

/-- Witness for C7's quantified part at the HD target and the
3840×2160 source. -/
theorem C7_scaled_size_pixel_budget_witness :
    |((((Resolution.mk 1280 720).scaled_size 3840 2160).1 : ℕ) : ℝ) -
        ((3840 : ℕ) : ℝ) *
          Real.sqrt (((Resolution.mk 1280 720).width : ℝ) *
            ((Resolution.mk 1280 720).height) /
            (((3840 : ℕ) : ℝ) * ((2160 : ℕ) : ℝ)))| ≤ 1 / 2 :=
  (C7_scaled_size_pixel_budget.2 ⟨1280, 720⟩ 3840 2160
    (by decide) (by decide) (by decide) (by decide)).1

end Watermarker
